import Mathlib

/-!
Shallow embedding of the proposal ranking engine and proposal status
state machine of `src/app.py` (Smart Vendor Management System).

Numeric columns of the pandas DataFrames are modelled as exact rationals
(`ℚ`); the `np.nan` sentinel used for an unresolved distance is modelled
as `Option ℚ` with `none` playing the role of NaN (pandas `min`/`max`
skip NaN, arithmetic on NaN yields NaN, and `fillna` replaces it).
-/

namespace SmartVendor

/-- A row of `vendor_data.csv` (`VENDOR_COLUMNS`), restricted to the fields
the ranking engine and its callers read: `submitted_by`, `company`,
`address`, `category`, `status`, `rate`. -/
structure Proposal where
  submitted_by : String
  company : String
  address : String
  category : String
  status : String
  rate : ℚ
deriving DecidableEq, Repr

/-- A row of `requirements.csv` (`REQUIREMENT_COLUMNS`), restricted to the
fields the analysis reads: `item_category` and `budgeted_rate`. -/
structure Requirement where
  item_category : String
  budgeted_rate : ℚ
deriving DecidableEq, Repr

/-- A row of `reviews.csv`: `proposal_index` (the positional index of the
reviewed proposal in `vendor_data.csv`) and the 1–5 star `rating`. -/
structure Review where
  proposal_index : Nat
  rating : ℚ
deriving DecidableEq, Repr

/-- Outcome of the `gmaps.directions` call inside `get_distance`
(src/app.py:172-178): the client is unconfigured (`gmaps` is `None`),
the call returns a route with a distance leg, the call returns an empty
result list, or the call raises. -/
inductive DirectionsOutcome where
  | noClient
  | route (text : String) (meters : Int)
  | noRoute
  | lookupError
deriving DecidableEq, Repr

/-- `get_distance(origin, destination)` (src/app.py:172-178), as a function
of the directions outcome for that origin/destination pair.  All failure
modes collapse to a `(label, 0)` pair; only a successful route returns its
leg's distance text and value in meters. -/
def get_distance : DirectionsOutcome → String × Int
  | .noClient => ("API Key not configured", 0)
  | .route t v => (t, v)
  | .noRoute => ("No route found", 0)
  | .lookupError => ("Error calculating", 0)

/-- `d / 1000 if d > 0 else np.nan` (src/app.py:551): meters are converted
to kilometers only when strictly positive, otherwise the distance is
marked missing (`none` models `np.nan`). -/
def distance_km (meters : Int) : Option ℚ :=
  if meters > 0 then some ((meters : ℚ) / 1000) else none

/-- Reviews of vendor `v`: `reviews.csv` inner-joined with
`vendor_data.csv` on `proposal_index` (src/app.py:131), restricted to rows
whose proposal was submitted by `v`. -/
def vendorReviewRatings (reviews : List Review) (proposals : List Proposal)
    (v : String) : List ℚ :=
  reviews.filterMap fun r =>
    match proposals.get? r.proposal_index with
    | some p => if p.submitted_by = v then some r.rating else none
    | none => none

/-- `get_vendor_ratings()` (src/app.py:127-134): merge reviews with
proposals on the proposal's positional index and take the mean rating per
`submitted_by`.  A vendor with no matched review is absent from the map
(`none`). -/
def get_vendor_ratings (reviews : List Review) (proposals : List Proposal)
    (v : String) : Option ℚ :=
  match vendorReviewRatings reviews proposals v with
  | [] => none
  | l => some (l.sum / l.length)

/-- `epsilon = 1e-9` (src/app.py:553). -/
def epsilon : ℚ := 1 / 1000000000

/-- The three importance sliders (src/app.py:540-542). -/
structure Weights where
  rate_w : ℚ
  dist_w : ℚ
  rating_w : ℚ
deriving DecidableEq, Repr

/-- `pending['submitted_by'].map(vendor_ratings).fillna(3.0)`
(src/app.py:547): a vendor absent from the ratings map defaults to 3.0. -/
def average_rating (ratings : String → Option ℚ) (p : Proposal) : ℚ :=
  (ratings p.submitted_by).getD 3

/-- `abs(pending['rate'] - avg_rate) / (avg_rate + epsilon)`
(src/app.py:554). -/
def rate_score (avg_rate : ℚ) (p : Proposal) : ℚ :=
  |p.rate - avg_rate| / (avg_rate + epsilon)

/-- `(5 - average_rating) / 4` (src/app.py:556). -/
def rating_score (avg_rating : ℚ) : ℚ :=
  (5 - avg_rating) / 4

/-- Pandas `Series.min` over a column with NaN holes: NaN entries are
skipped; the min of an all-NaN column is NaN (`none`). -/
def seriesMin (l : List (Option ℚ)) : Option ℚ :=
  (l.filterMap id).foldl
    (fun acc x => match acc with
      | none => some x
      | some m => some (min m x)) none

/-- Pandas `Series.max` over a column with NaN holes: NaN entries are
skipped; the max of an all-NaN column is NaN (`none`). -/
def seriesMax (l : List (Option ℚ)) : Option ℚ :=
  (l.filterMap id).foldl
    (fun acc x => match acc with
      | none => some x
      | some m => some (max m x)) none

/-- One row's `dist_norm` after the fill:
`(distance_km - min) / (max - min + epsilon)` (src/app.py:555) followed by
`fillna({'dist_norm': 0})` (src/app.py:558).  A NaN anywhere in the
arithmetic (the row's own distance missing, or an all-NaN batch) yields a
NaN `dist_norm`, which the fill replaces by 0. -/
def dist_norm (batch : List (Option ℚ)) (d : Option ℚ) : ℚ :=
  match d, seriesMin batch, seriesMax batch with
  | some x, some dmin, some dmax => (x - dmin) / (dmax - dmin + epsilon)
  | _, _, _ => 0

/-- The fully scored row the analysis builds for one pending proposal
(src/app.py:546-560). -/
structure ScoredRow where
  proposal : Proposal
  average_rating : ℚ
  distance_display : String
  distance_km : Option ℚ
  rate_score : ℚ
  dist_norm : ℚ
  rating_score : ℚ
  final_score : ℚ
deriving DecidableEq, Repr

/-- Score one pending proposal given the batch's `distance_km` column
(the min-max normalization of `dist_norm` is batch-relative;
everything else in the row depends only on the row itself,
`avg_rate`, the ratings map and the resolver). -/
def scoreRow (w : Weights) (avg_rate : ℚ) (ratings : String → Option ℚ)
    (resolver : String → String → String × Int) (site : String)
    (batchDists : List (Option ℚ)) (p : Proposal) : ScoredRow :=
  let res := resolver p.address site
  let d := distance_km res.2
  let avg := average_rating ratings p
  let rs := rate_score avg_rate p
  let dn := dist_norm batchDists d
  let rg := rating_score avg
  { proposal := p
    average_rating := avg
    distance_display := res.1
    distance_km := d
    rate_score := rs
    dist_norm := dn
    rating_score := rg
    final_score := rs * w.rate_w + dn * w.dist_w + rg * w.rating_w }

/-- The batch's `distance_km` column (src/app.py:550-551): each pending
proposal's address is resolved against the site address, and the meters
are converted by `distance_km`. -/
def batchDistances (resolver : String → String → String × Int)
    (site : String) (pending : List Proposal) : List (Option ℚ) :=
  pending.map fun p => distance_km (resolver p.address site).2

/-- The scoring pipeline of the `Analyze` button (src/app.py:546-560):
per-row average rating with default 3.0, per-row distance, `rate_score`,
batch-relative `dist_norm` with post-normalization zero fill,
`rating_score`, and the weighted-sum `final_score`. -/
def scoreProposals (w : Weights) (avg_rate : ℚ) (ratings : String → Option ℚ)
    (resolver : String → String → String × Int) (site : String)
    (pending : List Proposal) : List ScoredRow :=
  pending.map (scoreRow w avg_rate ratings resolver site
    (batchDistances resolver site pending))

/-- `category_reqs['budgeted_rate'].mean()` (src/app.py:527-528): the mean
budgeted rate over the requirements of the selected category. -/
def avg_rate_for (reqs : List Requirement) (cat : String) : ℚ :=
  let rs := (reqs.filter fun r => r.item_category = cat).map Requirement.budgeted_rate
  rs.sum / rs.length

/-- Result of the Smart Proposal Analysis section for one category
(src/app.py:519-561): no requirements at all (analysis disabled before
`avg_rate` is computed), an empty pending set (no ranking), or a scored
batch. -/
inductive AnalysisOutcome where
  | noRequirements
  | noPending (avg_rate : ℚ)
  | ranked (avg_rate : ℚ) (rows : List ScoredRow)
deriving Repr

/-- Control flow of the Smart Proposal Analysis section
(src/app.py:519-561): if `reqs_df.empty` the analysis is disabled
(src/app.py:520-521); otherwise `avg_rate` is the category's mean budgeted
rate (src/app.py:528) and the pending set is the proposals of the category
with status `Pending` (src/app.py:531); ranking runs only on a nonempty
pending set (src/app.py:538-560). -/
def smartAnalysis (reqs : List Requirement) (proposals : List Proposal)
    (cat : String) (w : Weights) (ratings : String → Option ℚ)
    (resolver : String → String → String × Int) (site : String) :
    AnalysisOutcome :=
  if reqs.isEmpty then .noRequirements
  else
    let avg := avg_rate_for reqs cat
    let pending := proposals.filter fun p => p.category == cat && p.status == "Pending"
    if pending.isEmpty then .noPending avg
    else .ranked avg (scoreProposals w avg ratings resolver site pending)

/-- The proposal status values written to the `status` column of
`vendor_data.csv`. -/
inductive Status where
  | pending
  | awaitingCertificates
  | certificatesSubmitted
  | accepted
  | outForDelivery
  | delivered
  | reviewed
  | rejected
deriving DecidableEq, Repr, Fintype

/-- The status string of each `Status` value as it appears in the CSV. -/
def Status.label : Status → String
  | .pending => "Pending"
  | .awaitingCertificates => "Awaiting Certificates"
  | .certificatesSubmitted => "Certificates Submitted"
  | .accepted => "Accepted"
  | .outForDelivery => "Out for Delivery"
  | .delivered => "Delivered"
  | .reviewed => "Reviewed"
  | .rejected => "Rejected"

/-- Position of a status in the forward chain
`Pending → Awaiting Certificates → Certificates Submitted → Accepted →
Out for Delivery → Delivered → Reviewed`; `Rejected` sits outside the
chain. -/
def Status.chainIdx : Status → Nat
  | .pending => 0
  | .awaitingCertificates => 1
  | .certificatesSubmitted => 2
  | .accepted => 3
  | .outForDelivery => 4
  | .delivered => 5
  | .reviewed => 6
  | .rejected => 7

/-- The status transitions of src/app.py.  Each transition is a button
whose handler assigns a new status to a row selected by a filter on the
current status:
* `Pending → Awaiting Certificates`: accept in the analysis tab
  (filter src/app.py:531, write src/app.py:578);
* `Pending → Rejected`: reject in the analysis tab (write src/app.py:585);
* `Awaiting Certificates → Certificates Submitted`: vendor confirms the
  certificate email (filter src/app.py:377, write src/app.py:387);
* `Certificates Submitted → Accepted`: final accept
  (filter src/app.py:602, write src/app.py:613);
* `Certificates Submitted → Rejected`: final reject (write src/app.py:620);
* `Accepted → Out for Delivery`: vendor dispatches
  (filter src/app.py:394, write src/app.py:411);
* `Out for Delivery → Delivered`: site confirms receipt
  (filter src/app.py:670, write src/app.py:680);
* `Delivered → Reviewed`: site submits a review
  (filter src/app.py:688, write src/app.py:703). -/
def step : Status → Status → Bool
  | .pending, .awaitingCertificates => true
  | .pending, .rejected => true
  | .awaitingCertificates, .certificatesSubmitted => true
  | .certificatesSubmitted, .accepted => true
  | .certificatesSubmitted, .rejected => true
  | .accepted, .outForDelivery => true
  | .outForDelivery, .delivered => true
  | .delivered, .reviewed => true
  | _, _ => false

/-- `Reaches s t`: the state machine can go from `s` to `t` in one or more
transitions. -/
inductive Reaches : Status → Status → Prop
  | single {s t : Status} : step s t = true → Reaches s t
  | tail {s m t : Status} : Reaches s m → step m t = true → Reaches s t

/-! Helper lemmas about the scoring pipeline. -/

theorem scoreRow_fields (w : Weights) (a : ℚ) (g : String → Option ℚ)
    (res : String → String → String × Int) (site : String)
    (batch : List (Option ℚ)) (p : Proposal) :
    (scoreRow w a g res site batch p).proposal = p
    ∧ (scoreRow w a g res site batch p).average_rating = average_rating g p
    ∧ (scoreRow w a g res site batch p).distance_display = (res p.address site).1
    ∧ (scoreRow w a g res site batch p).distance_km = distance_km (res p.address site).2
    ∧ (scoreRow w a g res site batch p).rate_score = rate_score a p
    ∧ (scoreRow w a g res site batch p).dist_norm
        = dist_norm batch (distance_km (res p.address site).2)
    ∧ (scoreRow w a g res site batch p).rating_score = rating_score (average_rating g p)
    ∧ (scoreRow w a g res site batch p).final_score
        = rate_score a p * w.rate_w
          + dist_norm batch (distance_km (res p.address site).2) * w.dist_w
          + rating_score (average_rating g p) * w.rating_w :=
  ⟨rfl, rfl, rfl, rfl, rfl, rfl, rfl, rfl⟩

theorem scoreProposals_get? {w : Weights} {a : ℚ} {g : String → Option ℚ}
    {res : String → String → String × Int} {site : String}
    {pending : List Proposal} {i : Nat} {p : Proposal}
    (hp : pending[i]? = some p) :
    (scoreProposals w a g res site pending)[i]? =
      some (scoreRow w a g res site (batchDistances res site pending) p) := by
  simp [scoreProposals, List.getElem?_map, hp]

theorem batchDistances_get? {res : String → String → String × Int} {site : String}
    {pending : List Proposal} {i : Nat} {p : Proposal}
    (hp : pending[i]? = some p) :
    (batchDistances res site pending)[i]? = some (distance_km (res p.address site).2) := by
  simp [batchDistances, List.getElem?_map, hp]

/-- The min-fold step used by `seriesMin`. -/
def minStep (acc : Option ℚ) (x : ℚ) : Option ℚ :=
  match acc with
  | none => some x
  | some m => some (min m x)

/-- The max-fold step used by `seriesMax`. -/
def maxStep (acc : Option ℚ) (x : ℚ) : Option ℚ :=
  match acc with
  | none => some x
  | some m => some (max m x)

theorem seriesMin_eq_foldl (l : List (Option ℚ)) :
    seriesMin l = (l.filterMap id).foldl minStep none := rfl

theorem seriesMax_eq_foldl (l : List (Option ℚ)) :
    seriesMax l = (l.filterMap id).foldl maxStep none := rfl

theorem foldl_minStep_some (l : List ℚ) (y : ℚ) :
    ∃ m, l.foldl minStep (some y) = some m ∧ m ≤ y := by
  induction l generalizing y with
  | nil => exact ⟨y, rfl, le_refl y⟩
  | cons a t ih =>
      obtain ⟨m, hm, hle⟩ := ih (min y a)
      exact ⟨m, hm, le_trans hle (min_le_left y a)⟩

theorem foldl_minStep_le (l : List ℚ) (acc : Option ℚ) (x : ℚ) (hx : x ∈ l) :
    ∃ m, l.foldl minStep acc = some m ∧ m ≤ x := by
  induction l generalizing acc with
  | nil => cases hx
  | cons a t ih =>
      rcases List.mem_cons.mp hx with rfl | hxt
      · cases acc with
        | none =>
            obtain ⟨m, hm, hle⟩ := foldl_minStep_some t x
            exact ⟨m, hm, hle⟩
        | some m0 =>
            obtain ⟨m, hm, hle⟩ := foldl_minStep_some t (min m0 x)
            exact ⟨m, hm, le_trans hle (min_le_right m0 x)⟩
      · exact ih (minStep acc a) hxt

theorem foldl_maxStep_some (l : List ℚ) (y : ℚ) :
    ∃ m, l.foldl maxStep (some y) = some m ∧ y ≤ m := by
  induction l generalizing y with
  | nil => exact ⟨y, rfl, le_refl y⟩
  | cons a t ih =>
      obtain ⟨m, hm, hle⟩ := ih (max y a)
      exact ⟨m, hm, le_trans (le_max_left y a) hle⟩

theorem foldl_maxStep_ge (l : List ℚ) (acc : Option ℚ) (x : ℚ) (hx : x ∈ l) :
    ∃ m, l.foldl maxStep acc = some m ∧ x ≤ m := by
  induction l generalizing acc with
  | nil => cases hx
  | cons a t ih =>
      rcases List.mem_cons.mp hx with rfl | hxt
      · cases acc with
        | none =>
            obtain ⟨m, hm, hle⟩ := foldl_maxStep_some t x
            exact ⟨m, hm, hle⟩
        | some m0 =>
            obtain ⟨m, hm, hle⟩ := foldl_maxStep_some t (max m0 x)
            exact ⟨m, hm, le_trans (le_max_right m0 x) hle⟩
      · exact ih (maxStep acc a) hxt

theorem seriesMin_le_of_mem {l : List (Option ℚ)} {x : ℚ} (hx : some x ∈ l) :
    ∃ m, seriesMin l = some m ∧ m ≤ x := by
  rw [seriesMin_eq_foldl]
  exact foldl_minStep_le _ none x (List.mem_filterMap.mpr ⟨some x, hx, rfl⟩)

theorem le_seriesMax_of_mem {l : List (Option ℚ)} {x : ℚ} (hx : some x ∈ l) :
    ∃ m, seriesMax l = some m ∧ x ≤ m := by
  rw [seriesMax_eq_foldl]
  exact foldl_maxStep_ge _ none x (List.mem_filterMap.mpr ⟨some x, hx, rfl⟩)

theorem epsilon_pos : (0 : ℚ) < epsilon := by norm_num [epsilon]

theorem dist_norm_none (batch : List (Option ℚ)) : dist_norm batch none = 0 := by
  unfold dist_norm
  cases seriesMin batch <;> cases seriesMax batch <;> rfl

theorem dist_norm_nonneg (batch : List (Option ℚ)) (d : Option ℚ)
    (hmem : ∀ x, d = some x → some x ∈ batch) : 0 ≤ dist_norm batch d := by
  cases d with
  | none => rw [dist_norm_none]
  | some x =>
      obtain ⟨dmin, hmin, hminle⟩ := seriesMin_le_of_mem (hmem x rfl)
      obtain ⟨dmax, hmax, hmaxle⟩ := le_seriesMax_of_mem (hmem x rfl)
      unfold dist_norm
      rw [hmin, hmax]
      have hd : 0 < dmax - dmin + epsilon := by
        have := epsilon_pos
        have : dmin ≤ dmax := le_trans hminle hmaxle
        have := epsilon_pos
        linarith
      exact div_nonneg (by linarith) (le_of_lt hd)

theorem foldl_minStep_all_eq {c : ℚ} (t : List ℚ) (h : ∀ x ∈ t, x = c) :
    t.foldl minStep (some c) = some c := by
  induction t with
  | nil => rfl
  | cons a t ih =>
      have ha : a = c := h a (List.mem_cons_self a t)
      rw [List.foldl_cons, ha, show minStep (some c) c = some c by simp [minStep]]
      exact ih fun x hx => h x (List.mem_cons_of_mem a hx)

theorem foldl_maxStep_all_eq {c : ℚ} (t : List ℚ) (h : ∀ x ∈ t, x = c) :
    t.foldl maxStep (some c) = some c := by
  induction t with
  | nil => rfl
  | cons a t ih =>
      have ha : a = c := h a (List.mem_cons_self a t)
      rw [List.foldl_cons, ha, show maxStep (some c) c = some c by simp [maxStep]]
      exact ih fun x hx => h x (List.mem_cons_of_mem a hx)

theorem seriesMin_all_eq {l : List (Option ℚ)} {c : ℚ} (hc : some c ∈ l)
    (h : ∀ o ∈ l, o = some c) : seriesMin l = some c := by
  rw [seriesMin_eq_foldl]
  have hall : ∀ x ∈ l.filterMap id, x = c := by
    intro x hx
    obtain ⟨o, ho, hid⟩ := List.mem_filterMap.mp hx
    have := h o ho
    rw [this] at hid
    exact (Option.some.inj hid).symm
  have hcm : c ∈ l.filterMap id := List.mem_filterMap.mpr ⟨some c, hc, rfl⟩
  cases hl : l.filterMap id with
  | nil => rw [hl] at hcm; cases hcm
  | cons a t =>
      rw [hl] at hall
      have ha : a = c := hall a (List.mem_cons_self a t)
      rw [List.foldl_cons, show minStep none a = some a from rfl, ha]
      exact foldl_minStep_all_eq t fun x hx => hall x (List.mem_cons_of_mem a hx)

theorem seriesMax_all_eq {l : List (Option ℚ)} {c : ℚ} (hc : some c ∈ l)
    (h : ∀ o ∈ l, o = some c) : seriesMax l = some c := by
  rw [seriesMax_eq_foldl]
  have hall : ∀ x ∈ l.filterMap id, x = c := by
    intro x hx
    obtain ⟨o, ho, hid⟩ := List.mem_filterMap.mp hx
    have := h o ho
    rw [this] at hid
    exact (Option.some.inj hid).symm
  have hcm : c ∈ l.filterMap id := List.mem_filterMap.mpr ⟨some c, hc, rfl⟩
  cases hl : l.filterMap id with
  | nil => rw [hl] at hcm; cases hcm
  | cons a t =>
      rw [hl] at hall
      have ha : a = c := hall a (List.mem_cons_self a t)
      rw [List.foldl_cons, show maxStep none a = some a from rfl, ha]
      exact foldl_maxStep_all_eq t fun x hx => hall x (List.mem_cons_of_mem a hx)

/-! Concrete values used by the witness theorems. -/

/-- A concrete pending proposal by vendor `v1`, rate 100. -/
def pEx : Proposal := ⟨"v1", "BuildCo", "addr1", "Cement", "Pending", 100⟩

/-- A concrete pending proposal by vendor `v2`, rate 100. -/
def pEx2 : Proposal := ⟨"v2", "SteelCo", "addr2", "Cement", "Pending", 100⟩

/-- A concrete pending proposal by vendor `v1` whose rate matches the
budget of `reqEx`. -/
def pBudget : Proposal := ⟨"v1", "BuildCo", "addr1", "Cement", "Pending", 150⟩

/-- A concrete requirement: Cement budgeted at 150. -/
def reqEx : Requirement := ⟨"Cement", 150⟩

/-- A ratings map with no entries (no vendor has review history). -/
def noRatings : String → Option ℚ := fun _ => none

/-- A resolver whose every lookup fails (`No route found`, 0 meters). -/
def failResolver : String → String → String × Int := fun _ _ => ("No route found", 0)

/-- A resolver that answers every lookup with 2000 meters. -/
def constResolver : String → String → String × Int := fun _ _ => ("2.0 km", 2000)

/-- Concrete slider weights, the defaults of src/app.py:540-542. -/
def wEx : Weights := ⟨1/2, 3/10, 1/5⟩

/-! Claim theorems. -/

/-- C8: the distance resolver never throws past its boundary — the
unconfigured-client, empty-route and exception outcomes each return a
descriptive label paired with numeric 0, every non-route outcome has
numeric part 0, and the engine maps any meters value that is not strictly
positive to the missing-distance sentinel rather than a zero distance. -/
theorem C8_distance_failures_collapse_to_zero_sentinel :
    get_distance .noClient = ("API Key not configured", 0)
    ∧ get_distance .noRoute = ("No route found", 0)
    ∧ get_distance .lookupError = ("Error calculating", 0)
    ∧ (∀ o : DirectionsOutcome, (∀ t v, o ≠ .route t v) → (get_distance o).2 = 0)
    ∧ (∀ m : Int, m ≤ 0 → distance_km m = none) := by
  refine ⟨rfl, rfl, rfl, ?_, ?_⟩
  · intro o h
    cases o with
    | noClient => rfl
    | route t v => exact absurd rfl (h t v)
    | noRoute => rfl
    | lookupError => rfl
  · intro m hm
    simp [distance_km, not_lt.mpr hm]

/-- C8 witness: the no-route outcome yields numeric 0, and meters values 0
and -3 are both treated as unknown distance. -/
theorem C8_witness :
    (get_distance .noRoute).2 = 0 ∧ distance_km 0 = none ∧ distance_km (-3) = none :=
  ⟨C8_distance_failures_collapse_to_zero_sentinel.2.2.2.1 .noRoute
      (fun t v h => DirectionsOutcome.noConfusion h),
   C8_distance_failures_collapse_to_zero_sentinel.2.2.2.2 0 (by decide),
   C8_distance_failures_collapse_to_zero_sentinel.2.2.2.2 (-3) (by decide)⟩

/-- C9: with no requirements on file the Smart Proposal Analysis is
disabled before `avg_rate` or the engine is touched, and with requirements
but an empty pending set for the selected category no ranking is
performed (the caller shows a no-data state). -/
theorem C9_analysis_guards (reqs : List Requirement) (proposals : List Proposal)
    (cat : String) (w : Weights) (g : String → Option ℚ)
    (res : String → String → String × Int) (site : String) :
    (reqs = [] → smartAnalysis reqs proposals cat w g res site = .noRequirements)
    ∧ (reqs ≠ [] →
        proposals.filter (fun p => p.category == cat && p.status == "Pending") = [] →
        smartAnalysis reqs proposals cat w g res site
          = .noPending (avg_rate_for reqs cat)) := by
  constructor
  · intro h
    subst h
    rfl
  · intro hne hfil
    unfold smartAnalysis
    rw [if_neg (by simpa using hne)]
    simp [hfil]

/-- C9 witness: with no requirements the outcome is `noRequirements`; with
one Cement requirement and no proposals at all the outcome is `noPending`. -/
theorem C9_witness :
    smartAnalysis [] [pEx] "Cement" wEx noRatings failResolver "site" = .noRequirements
    ∧ smartAnalysis [reqEx] [] "Cement" wEx noRatings failResolver "site"
        = .noPending (avg_rate_for [reqEx] "Cement") :=
  ⟨(C9_analysis_guards [] [pEx] "Cement" wEx noRatings failResolver "site").1 rfl,
   (C9_analysis_guards [reqEx] [] "Cement" wEx noRatings failResolver "site").2
      (by simp) rfl⟩

/-- C2: a pending proposal whose resolved distance in meters is not
strictly positive gets `distance_km = none` (the NaN sentinel, not zero)
before normalization, and its `dist_norm` is 0 after the
post-normalization fill, whatever the other proposals' distances are. -/
theorem C2_failed_lookup_gets_dist_norm_zero (w : Weights) (a : ℚ)
    (g : String → Option ℚ) (res : String → String → String × Int)
    (site : String) (pending : List Proposal) (i : Nat) (p : Proposal)
    (r : ScoredRow)
    (hp : pending[i]? = some p)
    (hm : (res p.address site).2 ≤ 0)
    (hr : (scoreProposals w a g res site pending)[i]? = some r) :
    r.distance_km = none ∧ r.dist_norm = 0 := by
  rw [scoreProposals_get? hp] at hr
  obtain rfl := Option.some.inj hr
  have hd : distance_km (res p.address site).2 = none := by
    simp [distance_km, not_lt.mpr hm]
  refine ⟨hd, ?_⟩
  show dist_norm (batchDistances res site pending) (distance_km (res p.address site).2) = 0
  rw [hd, dist_norm_none]

/-- C2 witness: in a two-proposal batch where the second proposal's lookup
resolves to 2000 meters but the first fails, the first row is missing its
distance and its `dist_norm` is filled with 0. -/
theorem C2_witness :
    ∃ r, (scoreProposals wEx 150 noRatings
        (fun o _ => if o == "addr1" then ("No route found", 0) else ("2.0 km", 2000))
        "site" [pEx, pEx2])[0]? = some r
      ∧ r.distance_km = none ∧ r.dist_norm = 0 := by
  refine ⟨_, rfl, ?_⟩
  exact C2_failed_lookup_gets_dist_norm_zero wEx 150 noRatings
    (fun o _ => if o == "addr1" then ("No route found", 0) else ("2.0 km", 2000))
    "site" [pEx, pEx2] 0 pEx _ rfl (by decide) rfl

/-- C10: a pending proposal's `rate_score`, `average_rating` and
`rating_score` depend only on the proposal itself, the ratings map and
`avg_rate` — scoring the same proposal inside two different pending
batches yields identical values for these fields (only `dist_norm` is
batch-relative). -/
theorem C10_rate_and_rating_scores_batch_independent (w : Weights) (a : ℚ)
    (g : String → Option ℚ) (res : String → String → String × Int)
    (site : String) (P1 P2 : List Proposal) (i j : Nat) (p : Proposal)
    (r1 r2 : ScoredRow)
    (h1 : P1[i]? = some p) (h2 : P2[j]? = some p)
    (hr1 : (scoreProposals w a g res site P1)[i]? = some r1)
    (hr2 : (scoreProposals w a g res site P2)[j]? = some r2) :
    r1.rate_score = r2.rate_score
    ∧ r1.average_rating = r2.average_rating
    ∧ r1.rating_score = r2.rating_score := by
  rw [scoreProposals_get? h1] at hr1
  rw [scoreProposals_get? h2] at hr2
  obtain rfl := Option.some.inj hr1
  obtain rfl := Option.some.inj hr2
  exact ⟨rfl, rfl, rfl⟩

/-- C10 witness: proposal `pEx` scored alone and scored as the second row
of a two-proposal batch gets the same `rate_score`, `average_rating` and
`rating_score`. -/
theorem C10_witness :
    ∃ r1 r2,
      (scoreProposals wEx 150 noRatings constResolver "site" [pEx])[0]? = some r1
      ∧ (scoreProposals wEx 150 noRatings constResolver "site" [pEx2, pEx])[1]? = some r2
      ∧ r1.rate_score = r2.rate_score
      ∧ r1.average_rating = r2.average_rating
      ∧ r1.rating_score = r2.rating_score := by
  refine ⟨_, _, rfl, rfl, ?_⟩
  exact C10_rate_and_rating_scores_batch_independent wEx 150 noRatings constResolver
    "site" [pEx] [pEx2, pEx] 0 1 pEx _ _ rfl rfl rfl rfl

/-- C3 (amended): every pending proposal's `rate_score` equals
`|rate − avg_rate| / (avg_rate + 1e-9)`, and a proposal whose rate exactly
equals `avg_rate` has `rate_score = 0`; consequently a pending set whose
rates all equal `avg_rate` scores 0 everywhere.  Identical rates alone do
not force `rate_score = 0`, because `avg_rate` is the mean budgeted rate
of the requirements, not of the pending proposals. -/
theorem C3_rate_score_is_deviation_from_avg_rate (w : Weights) (a : ℚ)
    (g : String → Option ℚ) (res : String → String → String × Int)
    (site : String) (pending : List Proposal) (i : Nat) (p : Proposal)
    (r : ScoredRow)
    (hp : pending[i]? = some p)
    (hr : (scoreProposals w a g res site pending)[i]? = some r) :
    r.rate_score = |p.rate - a| / (a + epsilon)
    ∧ (p.rate = a → r.rate_score = 0) := by
  rw [scoreProposals_get? hp] at hr
  obtain rfl := Option.some.inj hr
  refine ⟨rfl, ?_⟩
  intro h
  show rate_score a p = 0
  unfold rate_score
  rw [h, sub_self, abs_zero, zero_div]

/-- C3 witness: a proposal whose rate (150) equals `avg_rate` (150) scores
`rate_score = 0`. -/
theorem C3_witness :
    ∃ r, (scoreProposals wEx 150 noRatings failResolver "site" [pBudget])[0]? = some r
      ∧ r.rate_score = |pBudget.rate - 150| / (150 + epsilon) ∧ r.rate_score = 0 := by
  refine ⟨_, rfl, ?_⟩
  have h := C3_rate_score_is_deviation_from_avg_rate wEx 150 noRatings failResolver
    "site" [pBudget] 0 pBudget _ rfl rfl
  exact ⟨h.1, h.2 rfl⟩

/-- C3 counterexample: with one requirement budgeting Cement at 150
(so `avg_rate = 150`) and a nonempty pending set whose rates are all 100
(identical), the first row's `rate_score` is not 0 — refuting the claim
that any pending set with identical rates has `rate_score = 0` for all
proposals. -/
theorem C3_counterexample :
    avg_rate_for [reqEx] "Cement" = 150
    ∧ pEx.rate = pEx2.rate
    ∧ ∃ r, (scoreProposals wEx (avg_rate_for [reqEx] "Cement") noRatings failResolver
        "site" [pEx, pEx2])[0]? = some r ∧ r.rate_score ≠ 0 := by
  have havg : avg_rate_for [reqEx] "Cement" = 150 := by
    norm_num [avg_rate_for, reqEx]
  refine ⟨havg, rfl, _, rfl, ?_⟩
  show rate_score (avg_rate_for [reqEx] "Cement") pEx ≠ 0
  rw [havg]
  unfold rate_score
  have h1 : (0:ℚ) < |pEx.rate - 150| := abs_pos.mpr (by norm_num [pEx])
  have h2 : (0:ℚ) < 150 + epsilon := by norm_num [epsilon]
  exact (div_pos h1 h2).ne'

/-- C4: every pending proposal's `final_score` is exactly
`rate_score·w_rate + dist_norm·w_dist + rating_score·w_rating`, and under
the preconditions (rate > 0, avg_rate > 0, weights in [0,1], historical
ratings in [1,5]) it is non-negative. -/
theorem C4_final_score_weighted_sum_nonneg (w : Weights) (a : ℚ)
    (g : String → Option ℚ) (res : String → String → String × Int)
    (site : String) (pending : List Proposal) (i : Nat) (p : Proposal)
    (r : ScoredRow)
    (hp : pending[i]? = some p)
    (hr : (scoreProposals w a g res site pending)[i]? = some r)
    (hrate : 0 < p.rate) (ha : 0 < a)
    (hw1 : 0 ≤ w.rate_w) (hw1' : w.rate_w ≤ 1)
    (hw2 : 0 ≤ w.dist_w) (hw2' : w.dist_w ≤ 1)
    (hw3 : 0 ≤ w.rating_w) (hw3' : w.rating_w ≤ 1)
    (hg : ∀ v q, g v = some q → 1 ≤ q ∧ q ≤ 5) :
    r.final_score
      = r.rate_score * w.rate_w + r.dist_norm * w.dist_w + r.rating_score * w.rating_w
    ∧ 0 ≤ r.final_score := by
  rw [scoreProposals_get? hp] at hr
  obtain rfl := Option.some.inj hr
  refine ⟨rfl, ?_⟩
  show 0 ≤ rate_score a p * w.rate_w
      + dist_norm (batchDistances res site pending) (distance_km (res p.address site).2)
          * w.dist_w
      + rating_score (average_rating g p) * w.rating_w
  have hrs : 0 ≤ rate_score a p := by
    have he := epsilon_pos
    exact div_nonneg (abs_nonneg _) (by linarith)
  have hdn : 0 ≤ dist_norm (batchDistances res site pending)
      (distance_km (res p.address site).2) := by
    apply dist_norm_nonneg
    intro x hx
    have hb := @batchDistances_get? res site pending i p hp
    rw [hx] at hb
    exact List.getElem?_mem hb
  have hs5 : average_rating g p ≤ 5 := by
    unfold average_rating
    cases hv : g p.submitted_by with
    | none => norm_num
    | some q => simpa using (hg p.submitted_by q hv).2
  have hrg : 0 ≤ rating_score (average_rating g p) := by
    unfold rating_score
    exact div_nonneg (by linarith) (by norm_num)
  exact add_nonneg (add_nonneg (mul_nonneg hrs hw1) (mul_nonneg hdn hw2))
    (mul_nonneg hrg hw3)

/-- C4 witness: a concrete single-proposal batch under the default slider
weights has a non-negative `final_score` equal to its weighted sum. -/
theorem C4_witness :
    ∃ r, (scoreProposals wEx 150 noRatings failResolver "site" [pEx])[0]? = some r
      ∧ r.final_score
          = r.rate_score * wEx.rate_w + r.dist_norm * wEx.dist_w
            + r.rating_score * wEx.rating_w
      ∧ 0 ≤ r.final_score := by
  refine ⟨_, rfl, ?_⟩
  exact C4_final_score_weighted_sum_nonneg wEx 150 noRatings failResolver "site"
    [pEx] 0 pEx _ rfl rfl (by norm_num [pEx]) (by norm_num)
    (by norm_num [wEx]) (by norm_num [wEx]) (by norm_num [wEx])
    (by norm_num [wEx]) (by norm_num [wEx]) (by norm_num [wEx])
    (fun v q h => by simp [noRatings] at h)

/-- C5: every pending proposal's `average_rating` is its vendor's entry in
the reputation map built by `get_vendor_ratings` (mean historical review
rating) with default 3.0 when absent, its `rating_score` is
`(5 − average_rating) / 4`, a vendor with no matched reviews is absent
from the map and scores `rating_score = 1/2`, and a vendor with matched
reviews maps to their mean. -/
theorem C5_rating_score_from_reputation (w : Weights) (a : ℚ)
    (res : String → String → String × Int) (site : String)
    (reviews : List Review) (allProps : List Proposal)
    (pending : List Proposal) (i : Nat) (p : Proposal) (r : ScoredRow)
    (hp : pending[i]? = some p)
    (hr : (scoreProposals w a (get_vendor_ratings reviews allProps) res site
        pending)[i]? = some r) :
    r.average_rating = (get_vendor_ratings reviews allProps p.submitted_by).getD 3
    ∧ r.rating_score = (5 - r.average_rating) / 4
    ∧ (vendorReviewRatings reviews allProps p.submitted_by = [] →
        get_vendor_ratings reviews allProps p.submitted_by = none
        ∧ r.average_rating = 3 ∧ r.rating_score = 1 / 2)
    ∧ (∀ l, vendorReviewRatings reviews allProps p.submitted_by = l → l ≠ [] →
        get_vendor_ratings reviews allProps p.submitted_by
          = some (l.sum / l.length)) := by
  rw [scoreProposals_get? hp] at hr
  obtain rfl := Option.some.inj hr
  refine ⟨rfl, rfl, ?_, ?_⟩
  · intro h
    have hnone : get_vendor_ratings reviews allProps p.submitted_by = none := by
      unfold get_vendor_ratings
      rw [h]
    have h3 : average_rating (get_vendor_ratings reviews allProps) p = 3 := by
      unfold average_rating
      rw [hnone]
      rfl
    refine ⟨hnone, h3, ?_⟩
    show rating_score (average_rating (get_vendor_ratings reviews allProps) p) = 1 / 2
    rw [h3]
    norm_num [rating_score]
  · intro l hl hlne
    unfold get_vendor_ratings
    rw [hl]
    cases l with
    | nil => exact absurd rfl hlne
    | cons x t => rfl

/-- C5 witness: with one 5-star review of `pEx`'s proposal, vendor `v2`
(no history) is absent from the map, defaults to 3.0 and scores
`rating_score = 1/2`, while vendor `v1` maps to the mean of their single
review. -/
theorem C5_witness :
    (∃ r, (scoreProposals wEx 150 (get_vendor_ratings [⟨0, 5⟩] [pEx]) failResolver
        "site" [pEx2])[0]? = some r
      ∧ get_vendor_ratings [⟨0, 5⟩] [pEx] pEx2.submitted_by = none
      ∧ r.average_rating = 3 ∧ r.rating_score = 1 / 2)
    ∧ get_vendor_ratings [⟨0, 5⟩] [pEx] pEx.submitted_by
        = some ([(5:ℚ)].sum / [(5:ℚ)].length) := by
  constructor
  · refine ⟨_, rfl, ?_⟩
    exact (C5_rating_score_from_reputation wEx 150 failResolver "site" [⟨0, 5⟩]
      [pEx] [pEx2] 0 pEx2 _ rfl rfl).2.2.1 rfl
  · exact (C5_rating_score_from_reputation wEx 150 failResolver "site" [⟨0, 5⟩]
      [pEx] [pEx] 0 pEx _ rfl rfl).2.2.2 [5] rfl (by simp)

/-- C6: when every pending proposal's distance resolves to the same value,
every row's `dist_norm` is exactly 0, and the normalization denominator
is the nonzero `epsilon` rather than a division-by-zero error. -/
theorem C6_equal_resolved_distances_dist_norm_zero (w : Weights) (a : ℚ)
    (g : String → Option ℚ) (res : String → String → String × Int)
    (site : String) (pending : List Proposal) (i : Nat) (p : Proposal)
    (r : ScoredRow) (c : ℚ)
    (hall : ∀ q ∈ pending, distance_km (res q.address site).2 = some c)
    (hp : pending[i]? = some p)
    (hr : (scoreProposals w a g res site pending)[i]? = some r) :
    r.distance_km = some c ∧ r.dist_norm = 0 ∧ c - c + epsilon ≠ 0 := by
  rw [scoreProposals_get? hp] at hr
  obtain rfl := Option.some.inj hr
  have hd : distance_km (res p.address site).2 = some c :=
    hall p (List.getElem?_mem hp)
  have hbatch : ∀ o ∈ batchDistances res site pending, o = some c := by
    intro o ho
    obtain ⟨q, hq, rfl⟩ := List.mem_map.mp ho
    exact hall q hq
  have hcmem : some c ∈ batchDistances res site pending := by
    have hb := @batchDistances_get? res site pending i p hp
    rw [hd] at hb
    exact List.getElem?_mem hb
  refine ⟨hd, ?_, ?_⟩
  · show dist_norm (batchDistances res site pending)
        (distance_km (res p.address site).2) = 0
    rw [hd]
    unfold dist_norm
    rw [seriesMin_all_eq hcmem hbatch, seriesMax_all_eq hcmem hbatch]
    show (c - c) / (c - c + epsilon) = 0
    rw [sub_self, zero_div]
  · have := epsilon_pos
    intro hcon
    rw [sub_self, zero_add] at hcon
    rw [hcon] at this
    exact lt_irrefl 0 this

/-- C6 witness: a two-proposal batch whose lookups both resolve to 2000
meters (2 km each) has `dist_norm = 0` on its first row with the epsilon
guard nonzero. -/
theorem C6_witness :
    ∃ r, (scoreProposals wEx 150 noRatings constResolver "site" [pEx, pEx2])[0]?
        = some r
      ∧ r.distance_km = some 2 ∧ r.dist_norm = 0 ∧ (2:ℚ) - 2 + epsilon ≠ 0 := by
  refine ⟨_, rfl, ?_⟩
  exact C6_equal_resolved_distances_dist_norm_zero wEx 150 noRatings constResolver
    "site" [pEx, pEx2] 0 pEx _ 2
    (fun q hq => by norm_num [constResolver, distance_km]) rfl rfl

/-! Helper lemmas for the status state machine. -/

theorem step_into_goal_inv : ∀ s t : Status, step s t = true →
    (t = .pending ∨ t = .awaitingCertificates ∨ t = .certificatesSubmitted
      ∨ t = .rejected) →
    (s = .pending ∨ s = .awaitingCertificates ∨ s = .certificatesSubmitted) := by
  decide

theorem reaches_rejected_inv {s t : Status} (h : Reaches s t)
    (ht : t = .pending ∨ t = .awaitingCertificates ∨ t = .certificatesSubmitted
      ∨ t = .rejected) :
    s = .pending ∨ s = .awaitingCertificates ∨ s = .certificatesSubmitted := by
  induction h with
  | single hstep => exact step_into_goal_inv _ _ hstep ht
  | tail hreach hstep ih =>
      have hm := step_into_goal_inv _ _ hstep ht
      rcases hm with h | h | h
      · exact ih (Or.inl h)
      · exact ih (Or.inr (Or.inl h))
      · exact ih (Or.inr (Or.inr (Or.inl h)))

theorem no_step_from_rejected : ∀ t : Status, step .rejected t = false := by
  decide

theorem not_reaches_from_rejected : ∀ t : Status, ¬ Reaches .rejected t := by
  have key : ∀ s t : Status, Reaches s t → s = .rejected → False := by
    intro s t h
    induction h with
    | single hstep =>
        intro hs
        rw [hs, no_step_from_rejected] at hstep
        exact Bool.noConfusion hstep
    | tail hreach hstep ih => exact ih
  exact fun t h => key .rejected t h rfl

/-- C7: in the proposal status state machine, `Rejected` is reachable
(in one or more transitions) exactly from `Pending`,
`Awaiting Certificates` and `Certificates Submitted`; every non-reject
transition advances exactly one position in the chain
`Pending → Awaiting Certificates → Certificates Submitted → Accepted →
Out for Delivery → Delivered → Reviewed` (so nothing skips a state and
nothing reverses one), and `Rejected` is terminal: nothing is reachable
from it, in particular no path leads back to `Pending`. -/
theorem C7_status_state_machine :
    (∀ s : Status, Reaches s .rejected ↔
      (s = .pending ∨ s = .awaitingCertificates ∨ s = .certificatesSubmitted))
    ∧ (∀ s t : Status, step s t = true → t ≠ .rejected →
        t.chainIdx = s.chainIdx + 1)
    ∧ (∀ t : Status, ¬ Reaches .rejected t) := by
  refine ⟨?_, by decide, not_reaches_from_rejected⟩
  intro s
  constructor
  · intro h
    exact reaches_rejected_inv h (Or.inr (Or.inr (Or.inr rfl)))
  · intro h
    rcases h with rfl | rfl | rfl
    · exact Reaches.single rfl
    · exact @Reaches.tail .awaitingCertificates .certificatesSubmitted .rejected
        (Reaches.single rfl) rfl
    · exact Reaches.single rfl

/-- C7 witness: rejection is reachable from `Awaiting Certificates`, the
dispatch transition advances the chain by exactly one, and no path leads
from `Rejected` back to `Pending`. -/
theorem C7_witness :
    Reaches .awaitingCertificates .rejected
    ∧ Status.chainIdx .outForDelivery = Status.chainIdx .accepted + 1
    ∧ ¬ Reaches .rejected .pending :=
  ⟨(C7_status_state_machine.1 .awaitingCertificates).mpr (Or.inr (Or.inl rfl)),
   C7_status_state_machine.2.1 .accepted .outForDelivery rfl
     (fun h => Status.noConfusion h),
   C7_status_state_machine.2.2 .pending⟩

end SmartVendor
